import Mathlib

/-
Verification of the spotify-mcp-server request-dispatch layer.

The embedding below translates the HTTP request handler, the transport
selection logic and the startup sequence of src/index.ts into pure Lean
functions. Two functions imported from src/utils.ts
(extractRefreshTokenFromHeaders, runWithRefreshToken) are not part of the
provided sources; they are modelled from the specification and marked as
such in their doc comments. External platform primitives (JSON.parse, the
MCP SDK transport dispatch) are parameters of the embedding.
-/

/-- Minimal model of a JSON value, the result of a successful JSON.parse. -/
inductive Js where
  | null
  | bool (b : Bool)
  | num (n : Int)
  | str (s : String)
  | arr (elems : List Js)
  | obj (fields : List (String × Js))

/-- The value passed as the third argument to transport.handleRequest:
either undefined (no body), a decoded JSON value, or the raw body text
kept when JSON.parse failed (index.ts lines 102-120). -/
inductive Payload where
  | undefined
  | json (j : Js)
  | raw (s : String)

/-- Outcome of buffering the request body stream: the full text, or a
stream failure that throws out of the for-await loop. -/
inductive BodyStream where
  | ok (text : String)
  | failed (msg : String)
deriving DecidableEq, Repr

/-- Outcome of the awaited transport.handleRequest call inside
runWithRefreshToken (index.ts lines 123-131): it either completes, or it
throws; when it throws, headersSent records whether the response had
already been started, and msg is the message the catch block extracts
from the thrown value. -/
inductive DispatchOutcome where
  | completed
  | threw (headersSent : Bool) (msg : String)
deriving DecidableEq, Repr

/-- An inbound HTTP request as the handler sees it: req.url (possibly
absent), req.method, req.headers, and the body stream. Header values are
modelled as plain strings. -/
structure HttpRequest where
  url : Option String
  method : String
  headers : List (String × String)
  body : BodyStream

/-- The externally observable effects of one run of the request handler:
the status and body the handler itself wrote (none when the transport
owned the response), whether the body stream was consumed, whether
credential extraction ran, and the token/payload pair handed to
transport.handleRequest (none when it was never called). -/
structure HandlerResult where
  serverResponse : Option (Nat × String)
  bodyRead : Bool
  credentialExtracted : Bool
  dispatched : Option (String × Payload)

/-- Opening brace character of a JSON object, as a string. -/
def jsObjOpen : String := "\x7b"

/-- Closing brace character of a JSON object, as a string. -/
def jsObjClose : String := "\x7d"

/-- Model of JSON.stringify escaping for the message strings that appear
in the error envelopes (quote, backslash and common control characters). -/
def jsonEscape (s : String) : String :=
  String.join (s.data.map (fun c =>
    if c = '\\' then "\\\\"
    else if c = '"' then "\\\""
    else if c = '\n' then "\\n"
    else if c = '\r' then "\\r"
    else if c = '\t' then "\\t"
    else String.singleton c))

/-- JSON-RPC error envelope with an explicit id field text, mirroring
JSON.stringify of the object literals in index.ts (key order jsonrpc,
error(code, message), id). -/
def errorEnvelopeId (code : Int) (message : String) (idText : String) : String :=
  jsObjOpen ++ "\"jsonrpc\":\"2.0\",\"error\":" ++ jsObjOpen ++
    "\"code\":" ++ toString code ++ ",\"message\":\"" ++ jsonEscape message ++ "\"" ++
    jsObjClose ++ ",\"id\":" ++ idText ++ jsObjClose

/-- Every envelope the handler itself constructs carries id null
(index.ts lines 59-63, 79-87, 136-145). -/
def errorEnvelope (code : Int) (message : String) : String :=
  errorEnvelopeId code message "null"

/-- Body of the 404 response (index.ts lines 58-64). -/
def notFoundBody : String := errorEnvelope (-32000) "Not Found"

/-- Body of the 400 response for a missing refresh token
(index.ts lines 78-88). -/
def missingTokenBody : String :=
  errorEnvelope (-32000)
    "Missing refresh token. Include Token header with the refresh token."

/-- Body of the 500 response built in the catch block
(index.ts lines 135-146); msg stands for error.message when the thrown
value is an Error, and for the text Internal error otherwise. -/
def internalErrorBody (msg : String) : String := errorEnvelope (-32603) msg

/-- JS object assignment semantics for building the headers record:
assigning to an existing key overwrites it, otherwise the key is
appended. -/
def setHeader (m : List (String × String)) (k v : String) : List (String × String) :=
  match m with
  | [] => [(k, v)]
  | (k', v') :: rest => if k' = k then (k, v) :: rest else (k', v') :: setHeader rest k v

/-- First-match lookup in the headers record. -/
def lookupHeader (m : List (String × String)) (k : String) : Option String :=
  match m with
  | [] => none
  | (k', v) :: rest => if k' = k then some v else lookupHeader rest k

/-- ASCII lowering of one character, as String.prototype.toLowerCase
acts on the ASCII range that header names use. -/
def charLower (c : Char) : Char :=
  if c.isUpper then Char.ofNat (c.toNat + 32) else c

/-- Model of key.toLowerCase() on header names. -/
def jsToLowerCase (s : String) : String := ⟨s.data.map charLower⟩

/-- The header-normalisation loop of index.ts lines 69-72: every key is
lowercased and written into a fresh record. -/
def lowercaseHeaders (hs : List (String × String)) : List (String × String) :=
  hs.foldl (fun m kv => setHeader m (jsToLowerCase kv.1) kv.2) []

/-- Modelled from the spec: extractRefreshTokenFromHeaders lives in
src/utils.ts, which is not among the provided sources. Per spec sections
4.4 step 2 and 6 the credential is carried in the Token header, looked up
after the caller has lowercased all keys, and the extractor returns the
value of that header when present. -/
def extractRefreshTokenFromHeaders (headers : List (String × String)) : Option String :=
  lookupHeader headers "token"

/-- JS truthiness test applied to the extracted token at index.ts line 76:
undefined and the empty string are both falsy. -/
def isFalsyToken : Option String → Bool
  | none => true
  | some t => t == ""

/-- The token preview computed for logging (index.ts lines 93-96):
tokens longer than 20 characters are cut to their first 20 characters
followed by three dots, shorter tokens are used as is. -/
def tokenPreview (refreshToken : String) : String :=
  if refreshToken.length > 20
  then refreshToken.take 20 ++ "..."
  else refreshToken

/-- Resolution of req.url at index.ts line 55: req.url or the slash
default, where both undefined and the empty string are falsy. -/
def resolveUrl : Option String → String
  | none => "/"
  | some u => if u = "" then "/" else u

/-- The parsedBody computed from a successfully buffered POST body
(index.ts lines 109-119): the empty body is left as undefined, otherwise
the text is JSON-decoded and the raw text kept on decode failure. -/
def bodyPayload (parseJson : String → Option Js) (text : String) : Payload :=
  if text = "" then .undefined
  else
    match parseJson text with
    | some j => .json j
    | none => .raw text

/-- The payload computed from the body (index.ts lines 102-120) once the
route and token checks have passed: undefined unless the method is POST;
for POST, the buffered body text yields bodyPayload; none when the body
stream itself failed. -/
def computedPayload (parseJson : String → Option Js) (req : HttpRequest) :
    Option Payload :=
  if req.method = "POST" then
    match req.body with
    | .failed _ => none
    | .ok text => some (bodyPayload parseJson text)
  else some .undefined

/-- The tail of the handler (index.ts lines 122-148): run
transport.handleRequest under runWithRefreshToken; a throw with headers
not yet sent produces the 500 envelope, a throw after headers were sent
produces nothing further. -/
def finishDispatch (dispatch : String → Payload → DispatchOutcome)
    (token : String) (payload : Payload) (bodyWasRead : Bool) : HandlerResult :=
  match dispatch token payload with
  | .completed =>
    { serverResponse := none, bodyRead := bodyWasRead,
      credentialExtracted := true, dispatched := some (token, payload) }
  | .threw true _ =>
    { serverResponse := none, bodyRead := bodyWasRead,
      credentialExtracted := true, dispatched := some (token, payload) }
  | .threw false msg =>
    { serverResponse := some (500, internalErrorBody msg), bodyRead := bodyWasRead,
      credentialExtracted := true, dispatched := some (token, payload) }

/-- The HTTP request handler of index.ts lines 52-149, with JSON.parse
and the SDK transport dispatch as parameters. -/
def handleHttpRequest (parseJson : String → Option Js)
    (dispatch : String → Payload → DispatchOutcome)
    (req : HttpRequest) : HandlerResult :=
  let url := resolveUrl req.url
  if url ≠ "/" ∧ url ≠ "/mcp" then
    { serverResponse := some (404, notFoundBody), bodyRead := false,
      credentialExtracted := false, dispatched := none }
  else
    let headers := lowercaseHeaders req.headers
    match extractRefreshTokenFromHeaders headers with
    | none =>
      { serverResponse := some (400, missingTokenBody), bodyRead := false,
        credentialExtracted := true, dispatched := none }
    | some token =>
      if token = "" then
        { serverResponse := some (400, missingTokenBody), bodyRead := false,
          credentialExtracted := true, dispatched := none }
      else
        if req.method = "POST" then
          match req.body with
          | .failed msg =>
            { serverResponse := some (500, internalErrorBody msg), bodyRead := true,
              credentialExtracted := true, dispatched := none }
          | .ok text =>
            finishDispatch dispatch token (bodyPayload parseJson text) true
        else
          finishDispatch dispatch token .undefined false

/-- First-match lookup in the process environment, modelled as an
association list (environment variable names are unique). -/
def envGet (env : List (String × String)) (k : String) : Option String :=
  lookupHeader env k

/-- Transport selection of index.ts line 28: stdio is used exactly when
MCP_TRANSPORT equals stdio or the --stdio flag is among the process
arguments. -/
def useStdio (env : List (String × String)) (argv : List String) : Bool :=
  (envGet env "MCP_TRANSPORT" == some "stdio") || argv.contains "--stdio"

/-- Accumulation of decimal digits by Number.parseInt: consumes digits
until a non-digit character. -/
def jsDigits : List Char → Nat → Nat
  | [], acc => acc
  | c :: cs, acc =>
    if c.isDigit then jsDigits cs (acc * 10 + (c.toNat - 48)) else acc

/-- First step of Number.parseInt on an unsigned character list: NaN
(modelled as none) unless the first character is a decimal digit. -/
def jsParseIntCore : List Char → Option Nat
  | [] => none
  | c :: cs =>
    if c.isDigit then some (jsDigits cs (c.toNat - 48)) else none

/-- Model of Number.parseInt in base 10: leading whitespace is skipped,
an optional sign is consumed, then the longest leading digit run is the
value; none models NaN. -/
def jsParseInt (s : String) : Option Int :=
  let cs := s.data.dropWhile (fun c => c = ' ' ∨ c = '\t' ∨ c = '\n' ∨ c = '\r')
  match cs with
  | '-' :: rest => (jsParseIntCore rest).map (fun n => -(n : Int))
  | '+' :: rest => (jsParseIntCore rest).map (fun n => (n : Int))
  | _ => (jsParseIntCore cs).map (fun n => (n : Int))

/-- Port resolution of index.ts line 39: parseInt of PORT when PORT is
set and truthy (non-empty), 8888 otherwise; none models listening on
NaN. -/
def resolvedPort (env : List (String × String)) : Option Int :=
  match envGet env "PORT" with
  | none => some 8888
  | some p => if p = "" then some 8888 else jsParseInt p

/-- Host resolution of index.ts line 40: HOST when set and truthy
(non-empty), 0.0.0.0 otherwise. -/
def resolvedHost (env : List (String × String)) : String :=
  match envGet env "HOST" with
  | none => "0.0.0.0"
  | some h => if h = "" then "0.0.0.0" else h

/-- The two transports main() can connect. -/
inductive TransportKind where
  | stdio
  | streamableHttp
deriving DecidableEq, Repr

/-- Externally visible startup actions of the process. -/
inductive StartupEvent where
  | registerTool (name : String)
  | serverConnect (t : TransportKind)
  | httpListen (port : Option Int) (host : String)
deriving DecidableEq, Repr

/-- Program order of the startup sequence of index.ts: the module top
level (lines 19-22) registers every tool of allTools into the server,
then main() (called at line 164, after the module body ran) connects
exactly one transport and, on the HTTP path, starts the listener. The
tool list is a parameter because the tool modules are external
collaborators. -/
def startupTrace (toolNames : List String) (env : List (String × String))
    (argv : List String) : List StartupEvent :=
  (toolNames.map StartupEvent.registerTool) ++
    (if useStdio env argv then [StartupEvent.serverConnect .stdio]
     else [StartupEvent.serverConnect .streamableHttp,
           StartupEvent.httpListen (resolvedPort env) (resolvedHost env)])

/-- Modelled from the spec: progress of one runWithRefreshToken call in
the two-call interleaving semantics below. A call that has not started
will bind its credential and then perform the given number of ambient
reads; an active call has that many reads left before it unbinds and
finishes. -/
inductive CtxPhase where
  | notStarted (reads : Nat)
  | active (reads : Nat)
  | finished
deriving DecidableEq, Repr

/-- Removal of the binding of one call identifier from the shared
context store. -/
def eraseKey (t : Nat) (s : List (Nat × String)) : List (Nat × String) :=
  s.filter (fun kv => kv.1 ≠ t)

/-- First-match lookup in the shared context store. -/
def lookupCtx (t : Nat) : List (Nat × String) → Option String
  | [] => none
  | (k, v) :: rest => if k = t then some v else lookupCtx t rest

/-- Modelled from the spec: one scheduling step of the call with
identifier t and credential c. src/utils.ts (runWithRefreshToken and the
ambient read it serves) is not among the provided sources; per spec
section 4.2 the carrier keys the ambient binding by a per-call
identifier in a shared store: entering a run binds (t, c), every read
inside the extent looks up the key of the reading call, and leaving the
extent removes the binding. The step returns the next phase, the updated
store, and the observed value when the step was a read. -/
def ctxStep (t : Nat) (c : String) :
    CtxPhase → List (Nat × String) → CtxPhase × List (Nat × String) × Option (Option String)
  | .notStarted k, s => (.active k, (t, c) :: s, none)
  | .active (k + 1), s => (.active k, s, some (lookupCtx t s))
  | .active 0, s => (.finished, eraseKey t s, none)
  | .finished, s => (.finished, s, none)

/-- Modelled from the spec: cooperative interleaving of two
runWithRefreshToken calls. The schedule chooses, at every suspension
point, which call runs its next step (true for call 1, false for
call 2); the result is the list of ambient reads each call observed,
tagged with the identifier of the reading call. -/
def execTwoRuns (c1 c2 : String) :
    CtxPhase → CtxPhase → List (Nat × String) → List Bool → List (Nat × Option String)
  | _, _, _, [] => []
  | p1, p2, s, true :: rest =>
    let r := ctxStep 1 c1 p1 s
    (match r.2.2 with
     | some v => [(1, v)]
     | none => []) ++ execTwoRuns c1 c2 r.1 p2 r.2.1 rest
  | p1, p2, s, false :: rest =>
    let r := ctxStep 2 c2 p2 s
    (match r.2.2 with
     | some v => [(2, v)]
     | none => []) ++ execTwoRuns c1 c2 p1 r.1 r.2.1 rest

/-- Folding the lowercase loop is the same as folding plain assignments
over the key-lowercased header list. -/
theorem lowercaseHeaders_eq_fold_map (hs : List (String × String)) :
    lowercaseHeaders hs =
      (hs.map (fun kv => (jsToLowerCase kv.1, kv.2))).foldl
        (fun m kv => setHeader m kv.1 kv.2) [] := by
  simp [lowercaseHeaders, List.foldl_map]

/-- Claim C3: a request whose resolved URL is neither the root path nor
/mcp is answered with status 404 and the JSON-RPC Not Found envelope with
id null, with no credential extraction, no body read and no dispatch;
and a request to the root path or /mcp is never answered with status 404
by the handler itself. -/
theorem C3_route_rejection :
    (∀ parseJson dispatch (req : HttpRequest),
      resolveUrl req.url ≠ "/" → resolveUrl req.url ≠ "/mcp" →
        handleHttpRequest parseJson dispatch req =
          { serverResponse := some (404, errorEnvelopeId (-32000) "Not Found" "null"),
            bodyRead := false, credentialExtracted := false, dispatched := none }) ∧
    (∀ parseJson dispatch (req : HttpRequest) st body,
      (resolveUrl req.url = "/" ∨ resolveUrl req.url = "/mcp") →
        (handleHttpRequest parseJson dispatch req).serverResponse = some (st, body) →
          st ≠ 404) := by
  constructor
  · intro parseJson dispatch req h1 h2
    simp only [handleHttpRequest]
    rw [if_pos ⟨h1, h2⟩]
    rfl
  · intro parseJson dispatch req st body hroute hres
    simp only [handleHttpRequest, finishDispatch] at hres
    rw [if_neg (by rcases hroute with h | h <;> simp [h])] at hres
    rcases hex : extractRefreshTokenFromHeaders (lowercaseHeaders req.headers)
      with _ | token
    all_goals rw [hex] at hres
    · simp at hres
      omega
    · simp only at hres
      split at hres
      · simp at hres
        omega
      · split at hres
        · rcases hbody : req.body with text | msg
          all_goals rw [hbody] at hres
          · simp only at hres
            split at hres <;> simp_all <;> omega
          · simp at hres
            omega
        · split at hres <;> simp_all <;> omega

/-- Witness for C3 at the concrete path /other and, for the second part,
at /mcp where the handler answers 400 rather than 404. -/
theorem C3_route_rejection_witness :
    (handleHttpRequest (fun _ => none) (fun _ _ => .completed)
        ⟨some "/other", "GET", [], .ok ""⟩ =
      { serverResponse := some (404, errorEnvelopeId (-32000) "Not Found" "null"),
        bodyRead := false, credentialExtracted := false, dispatched := none }) ∧
    (400 : Nat) ≠ 404 := by
  refine ⟨C3_route_rejection.1 _ _ _ (by decide) (by decide), ?_⟩
  exact C3_route_rejection.2 (fun _ => none) (fun _ _ => .completed)
    ⟨some "/mcp", "GET", [], .ok ""⟩ 400 missingTokenBody (Or.inr rfl) rfl

/-- Claim C2: on an accepted path, a request whose (case-insensitively
looked up) Token header is absent or empty is answered with status 400
and exactly the JSON-RPC envelope of the spec, with the body never read
and nothing dispatched; and the handler result depends on header keys
only up to letter case. -/
theorem C2_missing_credential :
    (∀ parseJson dispatch (req : HttpRequest),
      (resolveUrl req.url = "/" ∨ resolveUrl req.url = "/mcp") →
      isFalsyToken (extractRefreshTokenFromHeaders (lowercaseHeaders req.headers)) = true →
        handleHttpRequest parseJson dispatch req =
          { serverResponse := some (400,
              "\x7b\"jsonrpc\":\"2.0\",\"error\":\x7b\"code\":-32000,\"message\":\"Missing refresh token. Include Token header with the refresh token.\"\x7d,\"id\":null\x7d"),
            bodyRead := false, credentialExtracted := true, dispatched := none }) ∧
    (∀ parseJson dispatch u m b (hs1 hs2 : List (String × String)),
      hs1.map (fun kv => (jsToLowerCase kv.1, kv.2)) = hs2.map (fun kv => (jsToLowerCase kv.1, kv.2)) →
        handleHttpRequest parseJson dispatch ⟨u, m, hs1, b⟩ =
          handleHttpRequest parseJson dispatch ⟨u, m, hs2, b⟩) := by
  constructor
  · intro parseJson dispatch req hroute hfalsy
    simp only [handleHttpRequest]
    rw [if_neg (by rcases hroute with h | h <;> simp [h])]
    rcases hex : extractRefreshTokenFromHeaders (lowercaseHeaders req.headers)
      with _ | token
    · rfl
    · rw [hex] at hfalsy
      simp only [isFalsyToken, beq_iff_eq] at hfalsy
      simp only [hfalsy, if_pos rfl]
      rfl
  · intro parseJson dispatch u m b hs1 hs2 hmap
    have hlow : lowercaseHeaders hs1 = lowercaseHeaders hs2 := by
      rw [lowercaseHeaders_eq_fold_map, lowercaseHeaders_eq_fold_map, hmap]
    simp only [handleHttpRequest, hlow]

/-- Witness for C2: a GET to /mcp with a cookie header but no Token
header is rejected with the exact 400 envelope, and the handler result
is unchanged when the same header is sent with uppercase letters in its
key. -/
theorem C2_missing_credential_witness :
    (handleHttpRequest (fun _ => none) (fun _ _ => .completed)
        ⟨some "/mcp", "GET", [("cookie", "x")], .ok ""⟩ =
      { serverResponse := some (400,
          "\x7b\"jsonrpc\":\"2.0\",\"error\":\x7b\"code\":-32000,\"message\":\"Missing refresh token. Include Token header with the refresh token.\"\x7d,\"id\":null\x7d"),
        bodyRead := false, credentialExtracted := true, dispatched := none }) ∧
    (handleHttpRequest (fun _ => none) (fun _ _ => .completed)
        ⟨some "/mcp", "GET", [("CoOkIe", "x")], .ok ""⟩ =
      handleHttpRequest (fun _ => none) (fun _ _ => .completed)
        ⟨some "/mcp", "GET", [("cookie", "x")], .ok ""⟩) := by
  constructor
  · exact C2_missing_credential.1 _ _ _ (Or.inr rfl) (by decide)
  · exact C2_missing_credential.2 (fun _ => none) (fun _ _ => .completed)
      (some "/mcp") "GET" (.ok "") [("CoOkIe", "x")] [("cookie", "x")] (by decide)

/-- Whatever the dispatch outcome, finishDispatch records the token and
payload that were handed to transport.handleRequest. -/
theorem finishDispatch_dispatched (dispatch : String → Payload → DispatchOutcome)
    (token : String) (payload : Payload) (b : Bool) :
    (finishDispatch dispatch token payload b).dispatched = some (token, payload) := by
  unfold finishDispatch
  rcases dispatch token payload with _ | ⟨hs, msg⟩
  · rfl
  · cases hs <;> rfl

/-- The response finishDispatch writes itself, by dispatch outcome. -/
theorem finishDispatch_serverResponse (dispatch : String → Payload → DispatchOutcome)
    (token : String) (payload : Payload) (b : Bool) :
    (finishDispatch dispatch token payload b).serverResponse =
      match dispatch token payload with
      | .completed => none
      | .threw true _ => none
      | .threw false msg => some (500, internalErrorBody msg) := by
  unfold finishDispatch
  rcases dispatch token payload with _ | ⟨hs, msg⟩
  · rfl
  · cases hs <;> rfl

/-- Claim C4: on an accepted path with a valid token, a POST whose
non-empty body fails to JSON-decode is not rejected by the handler: the
raw body text is handed to transport.handleRequest as the payload, while
a body that decodes is handed over as the decoded value. -/
theorem C4_body_decode_fallback :
    ∀ parseJson dispatch u (hs : List (String × String)) text token,
      (resolveUrl u = "/" ∨ resolveUrl u = "/mcp") →
      extractRefreshTokenFromHeaders (lowercaseHeaders hs) = some token →
      token ≠ "" → text ≠ "" →
      ((parseJson text = none →
          (handleHttpRequest parseJson dispatch ⟨u, "POST", hs, .ok text⟩).dispatched =
            some (token, Payload.raw text)) ∧
       (∀ j, parseJson text = some j →
          (handleHttpRequest parseJson dispatch ⟨u, "POST", hs, .ok text⟩).dispatched =
            some (token, Payload.json j))) := by
  intro parseJson dispatch u hs text token hroute hex htok htext
  have hbase :
      ∀ pj, handleHttpRequest pj dispatch ⟨u, "POST", hs, .ok text⟩ =
        finishDispatch dispatch token (bodyPayload pj text) true := by
    intro pj
    simp only [handleHttpRequest]
    rw [if_neg (by rcases hroute with h | h <;> simp [h])]
    rw [hex]
    simp [htok]
  constructor
  · intro hparse
    rw [hbase, show bodyPayload parseJson text = Payload.raw text from by
      simp [bodyPayload, htext, hparse]]
    exact finishDispatch_dispatched dispatch token (Payload.raw text) true
  · intro j hparse
    rw [hbase, show bodyPayload parseJson text = Payload.json j from by
      simp [bodyPayload, htext, hparse]]
    exact finishDispatch_dispatched dispatch token (Payload.json j) true

/-- Witness for C4 on /mcp with token t and body text that only decodes
under the second parse function. -/
theorem C4_body_decode_fallback_witness :
    ((handleHttpRequest (fun _ => none) (fun _ _ => .completed)
        ⟨some "/mcp", "POST", [("token", "t")], .ok "nope"⟩).dispatched =
      some ("t", Payload.raw "nope")) ∧
    ((handleHttpRequest (fun _ => some (Js.num 5)) (fun _ _ => .completed)
        ⟨some "/mcp", "POST", [("token", "t")], .ok "5"⟩).dispatched =
      some ("t", Payload.json (Js.num 5))) := by
  constructor
  · exact (C4_body_decode_fallback (fun _ => none) (fun _ _ => .completed)
      (some "/mcp") [("token", "t")] "nope" "t" (Or.inr rfl) rfl
      (by decide) (by decide)).1 rfl
  · exact (C4_body_decode_fallback (fun _ => some (Js.num 5)) (fun _ _ => .completed)
      (some "/mcp") [("token", "t")] "5" "t" (Or.inr rfl) rfl
      (by decide) (by decide)).2 (Js.num 5) rfl

/-- Claim C10: on an accepted path with a valid token, the payload
handed to transport.handleRequest is undefined unless the method is POST
and the body text is non-empty; a non-POST request never has its body
read, and a POST with an empty body passes undefined rather than an
empty string. -/
theorem C10_payload_undefined :
    ∀ parseJson dispatch (req : HttpRequest) token,
      (resolveUrl req.url = "/" ∨ resolveUrl req.url = "/mcp") →
      extractRefreshTokenFromHeaders (lowercaseHeaders req.headers) = some token →
      token ≠ "" →
      ((req.method ≠ "POST" →
          (handleHttpRequest parseJson dispatch req).dispatched =
              some (token, Payload.undefined) ∧
            (handleHttpRequest parseJson dispatch req).bodyRead = false) ∧
       (req.method = "POST" → req.body = .ok "" →
          (handleHttpRequest parseJson dispatch req).dispatched =
            some (token, Payload.undefined)) ∧
       (∀ tok pl, (handleHttpRequest parseJson dispatch req).dispatched = some (tok, pl) →
          pl ≠ Payload.undefined →
          req.method = "POST" ∧ ∃ text, req.body = .ok text ∧ text ≠ "")) := by
  intro parseJson dispatch req token hroute hex htok
  have hneg : ¬(resolveUrl req.url ≠ "/" ∧ resolveUrl req.url ≠ "/mcp") := by
    rcases hroute with h | h <;> simp [h]
  refine ⟨?_, ?_, ?_⟩
  · intro hm
    simp only [handleHttpRequest]
    rw [if_neg hneg, hex]
    simp only [htok, if_neg (fun h => htok h), if_neg hm]
    exact ⟨finishDispatch_dispatched dispatch token .undefined false, by
      unfold finishDispatch
      rcases dispatch token .undefined with _ | ⟨hs, msg⟩
      · rfl
      · cases hs <;> rfl⟩
  · intro hm hbody
    simp only [handleHttpRequest]
    rw [if_neg hneg, hex]
    simp only [if_neg (fun h => htok h), hm, if_pos rfl, hbody]
    exact finishDispatch_dispatched dispatch token .undefined true
  · intro tok pl hdisp hpl
    simp only [handleHttpRequest] at hdisp
    rw [if_neg hneg, hex] at hdisp
    simp only [if_neg (fun h => htok h)] at hdisp
    by_cases hm : req.method = "POST"
    · rw [if_pos hm] at hdisp
      rcases hbody : req.body with text | msg
      all_goals rw [hbody] at hdisp
      · by_cases htext : text = ""
        · rw [htext] at hdisp
          simp only [if_pos rfl] at hdisp
          rw [finishDispatch_dispatched] at hdisp
          cases hdisp
          exact absurd rfl hpl
        · exact ⟨hm, text, rfl, htext⟩
      · simp at hdisp
    · rw [if_neg hm] at hdisp
      rw [finishDispatch_dispatched] at hdisp
      cases hdisp
      exact absurd rfl hpl

/-- Witness for C10: a GET with a token dispatches undefined without
reading the body, a POST with an empty body dispatches undefined, and a
POST whose payload was the decoded number 5 indeed had a non-empty
body. -/
theorem C10_payload_undefined_witness :
    ((handleHttpRequest (fun _ => none) (fun _ _ => .completed)
        ⟨some "/", "GET", [("token", "t")], .ok "ignored"⟩).dispatched =
          some ("t", Payload.undefined) ∧
      (handleHttpRequest (fun _ => none) (fun _ _ => .completed)
        ⟨some "/", "GET", [("token", "t")], .ok "ignored"⟩).bodyRead = false) ∧
    ((handleHttpRequest (fun _ => none) (fun _ _ => .completed)
        ⟨some "/", "POST", [("token", "t")], .ok ""⟩).dispatched =
      some ("t", Payload.undefined)) ∧
    ("POST" = "POST" ∧ ∃ text, BodyStream.ok "5" = BodyStream.ok text ∧ text ≠ "") := by
  refine ⟨?_, ?_, ?_⟩
  · exact (C10_payload_undefined (fun _ => none) (fun _ _ => .completed)
      ⟨some "/", "GET", [("token", "t")], .ok "ignored"⟩ "t"
      (Or.inl rfl) rfl (by decide)).1 (by decide)
  · exact (C10_payload_undefined (fun _ => none) (fun _ _ => .completed)
      ⟨some "/", "POST", [("token", "t")], .ok ""⟩ "t"
      (Or.inl rfl) rfl (by decide)).2.1 rfl rfl
  · exact (C10_payload_undefined (fun _ => none) (fun _ _ => .completed)
      ⟨some "/", "POST", [("token", "t")], .ok "5"⟩ "t"
      (Or.inl rfl) rfl (by decide)).2.2 "t" (Payload.raw "5") rfl (by intro h; cases h)

/-- Claim C5: on an accepted path with a valid token, a failure thrown
out of the body read or out of dispatch is answered with status 500 and
the JSON-RPC envelope with code -32603 when no response was started yet,
and with nothing at all (the handler writes no response of its own) when
the response headers were already sent. -/
theorem C5_internal_failure :
    ∀ parseJson dispatch (req : HttpRequest) token,
      (resolveUrl req.url = "/" ∨ resolveUrl req.url = "/mcp") →
      extractRefreshTokenFromHeaders (lowercaseHeaders req.headers) = some token →
      token ≠ "" →
      ((∀ pl msg, computedPayload parseJson req = some pl →
          dispatch token pl = .threw false msg →
          (handleHttpRequest parseJson dispatch req).serverResponse =
            some (500, errorEnvelope (-32603) msg)) ∧
       (∀ pl msg, computedPayload parseJson req = some pl →
          dispatch token pl = .threw true msg →
          (handleHttpRequest parseJson dispatch req).serverResponse = none) ∧
       (∀ msg, req.method = "POST" → req.body = .failed msg →
          (handleHttpRequest parseJson dispatch req).serverResponse =
            some (500, errorEnvelope (-32603) msg))) := by
  intro parseJson dispatch req token hroute hex htok
  obtain ⟨u, m, hs0, body⟩ := req
  dsimp only at hroute hex
  have hneg : ¬(resolveUrl u ≠ "/" ∧ resolveUrl u ≠ "/mcp") := by
    rcases hroute with h | h <;> simp [h]
  have hmain :
      ∀ pl, computedPayload parseJson ⟨u, m, hs0, body⟩ = some pl →
        ∃ b, handleHttpRequest parseJson dispatch ⟨u, m, hs0, body⟩ =
          finishDispatch dispatch token pl b := by
    intro pl hpl
    simp only [computedPayload] at hpl
    simp only [handleHttpRequest]
    rw [if_neg hneg, hex]
    simp only [if_neg (fun h => htok h)]
    by_cases hm : m = "POST"
    · rw [if_pos hm] at hpl ⊢
      cases body with
      | ok text =>
        injection hpl with h
        subst h
        exact ⟨true, rfl⟩
      | failed msg => exact absurd hpl (by simp)
    · rw [if_neg hm] at hpl ⊢
      injection hpl with h
      subst h
      exact ⟨false, rfl⟩
  refine ⟨?_, ?_, ?_⟩
  · intro pl msg hpl hdisp
    obtain ⟨b, hb⟩ := hmain pl hpl
    rw [hb, finishDispatch_serverResponse, hdisp]
    rfl
  · intro pl msg hpl hdisp
    obtain ⟨b, hb⟩ := hmain pl hpl
    rw [hb, finishDispatch_serverResponse, hdisp]
  · intro msg hm hbody
    dsimp only at hm hbody
    subst hm
    subst hbody
    simp only [handleHttpRequest]
    rw [if_neg hneg, hex]
    simp only [if_neg (fun h => htok h)]
    rw [if_pos trivial]
    rfl

/-- Witness for C5 at /mcp with token t: a dispatch that throws before
headers gives the 500 envelope with its message, one that throws after
headers gives no handler response, and a failing body stream gives the
500 envelope with the stream message. -/
theorem C5_internal_failure_witness :
    ((handleHttpRequest (fun _ => none) (fun _ _ => .threw false "boom")
        ⟨some "/mcp", "GET", [("token", "t")], .ok ""⟩).serverResponse =
      some (500, errorEnvelope (-32603) "boom")) ∧
    ((handleHttpRequest (fun _ => none) (fun _ _ => .threw true "late")
        ⟨some "/mcp", "GET", [("token", "t")], .ok ""⟩).serverResponse = none) ∧
    ((handleHttpRequest (fun _ => none) (fun _ _ => .completed)
        ⟨some "/mcp", "POST", [("token", "t")], .failed "reset"⟩).serverResponse =
      some (500, errorEnvelope (-32603) "reset")) := by
  refine ⟨?_, ?_, ?_⟩
  · exact (C5_internal_failure (fun _ => none) (fun _ _ => .threw false "boom")
      ⟨some "/mcp", "GET", [("token", "t")], .ok ""⟩ "t"
      (Or.inr rfl) rfl (by decide)).1 Payload.undefined "boom" rfl rfl
  · exact (C5_internal_failure (fun _ => none) (fun _ _ => .threw true "late")
      ⟨some "/mcp", "GET", [("token", "t")], .ok ""⟩ "t"
      (Or.inr rfl) rfl (by decide)).2.1 Payload.undefined "late" rfl rfl
  · exact (C5_internal_failure (fun _ => none) (fun _ _ => .completed)
      ⟨some "/mcp", "POST", [("token", "t")], .failed "reset"⟩ "t"
      (Or.inr rfl) rfl (by decide)).2.2 "reset" rfl rfl

/-- Claim C7 counterexample: the credential abc has length 3, at most
20, and its logged preview is the credential itself, so a credential is
logged in full whenever it is 20 characters or shorter, refuting that
the credential is never written to the log in full. -/
theorem C7_full_token_counterexample :
    tokenPreview "abc" = "abc" ∧ ("abc" : String).length ≤ 20 := by
  exact ⟨rfl, by decide⟩

/-- Claim C7 as amended: the logged value is a preview of at most 23
characters; a credential longer than 20 characters is logged truncated
to its first 20 characters plus an ellipsis, while a credential of at
most 20 characters is logged in full. -/
theorem C7_token_preview_amended :
    ∀ t : String,
      (tokenPreview t).length ≤ 23 ∧
      (t.length ≤ 20 → tokenPreview t = t) ∧
      (20 < t.length → tokenPreview t = t.take 20 ++ "...") := by
  intro t
  refine ⟨?_, ?_, ?_⟩
  · unfold tokenPreview
    split
    · rw [String.length_append]
      have h1 : (t.take 20).length ≤ 20 := by
        rw [String.take_eq]
        show (t.data.take 20).length ≤ 20
        rw [List.length_take]
        exact min_le_left _ _
      have h2 : ("..." : String).length = 3 := rfl
      omega
    · omega
  · intro h
    unfold tokenPreview
    rw [if_neg (by omega)]
  · intro h
    unfold tokenPreview
    rw [if_pos h]

/-- Witness for the amended C7 at the short credential abc and a
25-character credential. -/
theorem C7_token_preview_amended_witness :
    tokenPreview "abc" = "abc" ∧
    tokenPreview "abcdefghijklmnopqrstuvwxy" =
      String.take "abcdefghijklmnopqrstuvwxy" 20 ++ "..." :=
  ⟨(C7_token_preview_amended "abc").2.1 (by decide),
   (C7_token_preview_amended "abcdefghijklmnopqrstuvwxy").2.2 (by decide)⟩

/-- First-match lookup among the fields of a decoded JSON object. -/
def lookupJsField (k : String) : List (String × Js) → Option Js
  | [] => none
  | (k', v) :: rest => if k' = k then some v else lookupJsField k rest

/-- The decoded body of a JSON-RPC request that carries id 1. -/
def sampleReqJson : Js :=
  Js.obj [("jsonrpc", Js.str "2.0"), ("id", Js.num 1),
          ("method", Js.str "tools/list")]

/-- Claim C6 counterexample: a POST to /mcp with a token whose body
parses to a JSON-RPC request with id 1 and whose dispatch then throws
before headers are sent is answered with the 500 envelope carrying id
null, not the request id 1, although the id had been parsed before the
failure. -/
theorem C6_id_counterexample :
    (handleHttpRequest (fun _ => some sampleReqJson)
        (fun _ _ => .threw false "boom")
        ⟨some "/mcp", "POST", [("token", "t")],
          .ok "\x7b\"jsonrpc\":\"2.0\",\"id\":1,\"method\":\"tools/list\"\x7d"⟩).serverResponse =
      some (500, errorEnvelopeId (-32603) "boom" "null") ∧
    lookupJsField "id"
      [("jsonrpc", Js.str "2.0"), ("id", Js.num 1),
       ("method", Js.str "tools/list")] = some (Js.num 1) ∧
    errorEnvelopeId (-32603) "boom" "null" ≠ errorEnvelopeId (-32603) "boom" "1" := by
  refine ⟨rfl, rfl, by decide⟩

/-- Claim C6 as amended: every error envelope the handler itself
constructs carries id null, even when the request body had already been
parsed and contains an id; envelopes that echo a request id come from
the transport engine, not from the handler. -/
theorem C6_server_envelope_id_null :
    ∀ parseJson dispatch (req : HttpRequest) st body,
      (handleHttpRequest parseJson dispatch req).serverResponse = some (st, body) →
      ∃ code msg, body = errorEnvelopeId code msg "null" := by
  intro parseJson dispatch req st body hres
  simp only [handleHttpRequest, finishDispatch] at hres
  split at hres
  · injection hres with h
    injection h with h1 h2
    exact ⟨-32000, "Not Found", h2.symm⟩
  · split at hres
    · injection hres with h
      injection h with h1 h2
      exact ⟨-32000,
        "Missing refresh token. Include Token header with the refresh token.",
        h2.symm⟩
    · split at hres
      · injection hres with h
        injection h with h1 h2
        exact ⟨-32000,
          "Missing refresh token. Include Token header with the refresh token.",
          h2.symm⟩
      · split at hres
        · split at hres
          · injection hres with h
            injection h with h1 h2
            exact ⟨-32603, _, h2.symm⟩
          · split at hres
            · exact absurd hres (by simp)
            · exact absurd hres (by simp)
            · injection hres with h
              injection h with h1 h2
              exact ⟨-32603, _, h2.symm⟩
        · split at hres
          · exact absurd hres (by simp)
          · exact absurd hres (by simp)
          · injection hres with h
            injection h with h1 h2
            exact ⟨-32603, _, h2.symm⟩

/-- Witness for the amended C6 at a request for an unknown path, whose
404 body is the Not Found envelope with id null. -/
theorem C6_server_envelope_id_null_witness :
    ∃ code msg, notFoundBody = errorEnvelopeId code msg "null" :=
  C6_server_envelope_id_null (fun _ => none) (fun _ _ => .completed)
    ⟨some "/bad", "GET", [], .ok ""⟩ 404 notFoundBody rfl

/-- Claim C8: in every execution, every tool registration precedes every
transport connect in the startup trace: a registerTool event always has
a strictly smaller index than any serverConnect event. -/
theorem C8_registration_before_connect :
    ∀ (toolNames : List String) (env : List (String × String))
      (argv : List String) (i j : Nat) (name : String) (t : TransportKind),
      (startupTrace toolNames env argv)[i]? = some (StartupEvent.registerTool name) →
      (startupTrace toolNames env argv)[j]? = some (StartupEvent.serverConnect t) →
      i < j := by
  intro toolNames env argv i j name t hi hj
  have hilt : i < (toolNames.map StartupEvent.registerTool).length := by
    by_contra hge
    push_neg at hge
    rw [startupTrace, List.getElem?_append_right hge] at hi
    split at hi
    · exact absurd (List.getElem?_mem hi) (by simp)
    · exact absurd (List.getElem?_mem hi) (by simp)
  have hjge : (toolNames.map StartupEvent.registerTool).length ≤ j := by
    by_contra hlt
    push_neg at hlt
    rw [startupTrace, List.getElem?_append_left hlt] at hj
    have hmem := List.getElem?_mem hj
    simp [List.mem_map] at hmem
  omega

/-- Witness for C8 on a two-tool startup in HTTP mode: the first
registration at index 0 precedes the connect at index 2. -/
theorem C8_registration_before_connect_witness : (0 : Nat) < 2 :=
  C8_registration_before_connect ["play", "read"] [] [] 0 2 "play"
    TransportKind.streamableHttp rfl rfl

/-- Claim C9: stdio is selected exactly when MCP_TRANSPORT is stdio or
--stdio is among the process arguments; otherwise the HTTP listener
binds the parseInt of PORT (8888 when PORT is unset) and the HOST value
(0.0.0.0 when HOST is unset). -/
theorem C9_transport_config :
    ∀ env argv,
      (useStdio env argv = true ↔
        (envGet env "MCP_TRANSPORT" = some "stdio" ∨ argv.contains "--stdio" = true)) ∧
      (envGet env "PORT" = none → resolvedPort env = some 8888) ∧
      (∀ p, envGet env "PORT" = some p → p ≠ "" → resolvedPort env = jsParseInt p) ∧
      (envGet env "HOST" = none → resolvedHost env = "0.0.0.0") ∧
      (∀ h, envGet env "HOST" = some h → h ≠ "" → resolvedHost env = h) := by
  intro env argv
  refine ⟨?_, ?_, ?_, ?_, ?_⟩
  · simp [useStdio]
  · intro h
    simp [resolvedPort, h]
  · intro p hp hne
    simp [resolvedPort, hp, hne]
  · intro h
    simp [resolvedHost, h]
  · intro h hh hne
    simp [resolvedHost, hh, hne]

/-- Witness for C9: defaults with an empty environment, explicit PORT
and HOST values, and stdio selection via the environment variable. -/
theorem C9_transport_config_witness :
    resolvedPort [] = some 8888 ∧
    resolvedPort [("PORT", "9000")] = jsParseInt "9000" ∧
    resolvedHost [] = "0.0.0.0" ∧
    resolvedHost [("HOST", "example.org")] = "example.org" ∧
    useStdio [("MCP_TRANSPORT", "stdio")] [] = true :=
  ⟨(C9_transport_config [] []).2.1 rfl,
   (C9_transport_config [("PORT", "9000")] []).2.2.1 "9000" rfl (by decide),
   (C9_transport_config [] []).2.2.2.1 rfl,
   (C9_transport_config [("HOST", "example.org")] []).2.2.2.2 "example.org" rfl
     (by decide),
   ((C9_transport_config [("MCP_TRANSPORT", "stdio")] []).1).mpr (Or.inl rfl)⟩

/-- A binding for a different call identifier does not change what a
call reads from the context store. -/
theorem lookupCtx_cons_ne (t u : Nat) (c : String) (s : List (Nat × String))
    (h : ¬u = t) : lookupCtx t ((u, c) :: s) = lookupCtx t s := by
  simp [lookupCtx, h]

/-- Removing the binding of a different call identifier does not change
what a call reads from the context store. -/
theorem lookupCtx_eraseKey_ne (t u : Nat) (s : List (Nat × String))
    (h : t ≠ u) : lookupCtx t (eraseKey u s) = lookupCtx t s := by
  induction s with
  | nil => rfl
  | cons kv rest ih =>
    obtain ⟨k, v⟩ := kv
    by_cases hk : k = u
    · subst hk
      have hkt : ¬k = t := fun hkt => h (hkt ▸ rfl)
      simp only [eraseKey, List.filter_cons] at *
      simp only [lookupCtx, hkt, if_neg hkt]
      simpa [hkt] using ih
    · simp only [eraseKey, List.filter_cons] at *
      by_cases hkt : k = t
      · subst hkt
        simp [lookupCtx, hk]
      · simp only [lookupCtx, if_neg hkt]
        simp only [show (decide ¬k = u) = true from by simp [hk], if_pos]
        simp only [lookupCtx, if_neg hkt]
        exact ih

/-- Invariant lemma for the two-call interleaving: whenever each active
call finds its own credential in the store, every read observed along
any remaining schedule returns the credential of the reading call. -/
theorem execTwoRuns_reads_own (X Y : String) :
    ∀ (sched : List Bool) (p1 p2 : CtxPhase) (s : List (Nat × String)),
      (∀ k, p1 = .active k → lookupCtx 1 s = some X) →
      (∀ k, p2 = .active k → lookupCtx 2 s = some Y) →
      ∀ out, ((1, out) ∈ execTwoRuns X Y p1 p2 s sched → out = some X) ∧
             ((2, out) ∈ execTwoRuns X Y p1 p2 s sched → out = some Y) := by
  intro sched
  induction sched with
  | nil =>
    intro p1 p2 s h1 h2 out
    simp [execTwoRuns]
  | cons b rest ih =>
    intro p1 p2 s h1 h2 out
    cases b
    · cases p2 with
      | notStarted k =>
        simp only [execTwoRuns, ctxStep, List.nil_append]
        refine ih p1 (.active k) ((2, Y) :: s) ?_ ?_ out
        · intro k' hk'
          rw [lookupCtx_cons_ne 1 2 Y s (by decide)]
          exact h1 k' hk'
        · intro k' hk'
          simp [lookupCtx]
      | active k =>
        cases k with
        | zero =>
          simp only [execTwoRuns, ctxStep, List.nil_append]
          refine ih p1 .finished (eraseKey 2 s) ?_ ?_ out
          · intro k' hk'
            rw [lookupCtx_eraseKey_ne 1 2 s (by decide)]
            exact h1 k' hk'
          · intro k' hk'
            cases hk'
        | succ k' =>
          simp only [execTwoRuns, ctxStep]
          constructor
          · intro hm
            rcases List.mem_cons.mp hm with heq | hmem
            · cases heq
            · exact (ih p1 (.active k') s h1
                (fun k hk => h2 (k' + 1) rfl) out).1 hmem
          · intro hm
            rcases List.mem_cons.mp hm with heq | hmem
            · injection heq with h hout
              rw [hout]
              exact h2 (k' + 1) rfl
            · exact (ih p1 (.active k') s h1
                (fun k hk => h2 (k' + 1) rfl) out).2 hmem
      | finished =>
        simp only [execTwoRuns, ctxStep, List.nil_append]
        exact ih p1 .finished s h1 (fun k hk => by cases hk) out
    · cases p1 with
      | notStarted k =>
        simp only [execTwoRuns, ctxStep, List.nil_append]
        refine ih (.active k) p2 ((1, X) :: s) ?_ ?_ out
        · intro k' hk'
          simp [lookupCtx]
        · intro k' hk'
          rw [lookupCtx_cons_ne 2 1 X s (by decide)]
          exact h2 k' hk'
      | active k =>
        cases k with
        | zero =>
          simp only [execTwoRuns, ctxStep, List.nil_append]
          refine ih .finished p2 (eraseKey 1 s) ?_ ?_ out
          · intro k' hk'
            cases hk'
          · intro k' hk'
            rw [lookupCtx_eraseKey_ne 2 1 s (by decide)]
            exact h2 k' hk'
        | succ k' =>
          simp only [execTwoRuns, ctxStep]
          constructor
          · intro hm
            rcases List.mem_cons.mp hm with heq | hmem
            · injection heq with h hout
              rw [hout]
              exact h1 (k' + 1) rfl
            · exact (ih (.active k') p2 s
                (fun k hk => h1 (k' + 1) rfl) h2 out).1 hmem
          · intro hm
            rcases List.mem_cons.mp hm with heq | hmem
            · cases heq
            · exact (ih (.active k') p2 s
                (fun k hk => h1 (k' + 1) rfl) h2 out).2 hmem
      | finished =>
        simp only [execTwoRuns, ctxStep, List.nil_append]
        exact ih .finished p2 s (fun k hk => by cases hk) h2 out

/-- Claim C1: for two calls run under the credential carrier with
credentials X and Y, every ambient read made inside the first call
returns X and every one made inside the second call returns Y, for
every interleaving of the two calls. -/
theorem C1_isolation :
    ∀ (X Y : String), X ≠ Y →
    ∀ (n m : Nat) (sched : List Bool) (out : Option String),
      ((1, out) ∈ execTwoRuns X Y (.notStarted n) (.notStarted m) [] sched →
        out = some X) ∧
      ((2, out) ∈ execTwoRuns X Y (.notStarted n) (.notStarted m) [] sched →
        out = some Y) := by
  intro X Y hXY n m sched out
  exact execTwoRuns_reads_own X Y sched (.notStarted n) (.notStarted m) []
    (fun k hk => by cases hk) (fun k hk => by cases hk) out

/-- Witness for C1 on the schedule where call 2 starts and finishes
entirely inside a suspension point of call 1: both reads return the
credential of the reading call. -/
theorem C1_isolation_witness :
    ("X" : String) ≠ "Y" ∧
    (some "X" : Option String) = some "X" ∧
    (some "Y" : Option String) = some "Y" :=
  ⟨by decide,
   (C1_isolation "X" "Y" (by decide) 1 1
      [true, false, false, false, true, true] (some "X")).1 (by decide),
   (C1_isolation "X" "Y" (by decide) 1 1
      [true, false, false, false, true, true] (some "Y")).2 (by decide)⟩
